import Mathlib

/-!
Shallow embedding of the core of the pyhanko-certvalidator PKIX validator
(slice: `validate.py`, `revinfo/validate_crl.py`, `ltv/poe.py`), together
with theorems settling the frozen claims about it.

Conventions:
* datetimes and timedeltas are modelled as `Int` (they form a totally
  ordered group, which is all the code uses);
* DER byte strings are `List Nat`;
* distinguished names are sequences of opaque relative distinguished
  names (`List RDN` with `RDN := Nat`);
* Python functions that raise are modelled with `Except`/`Option`.
-/

/-- Revocation reasons of `crl.CRLReason` (asn1crypto enumeration). -/
inductive Reason where
  | unspecified
  | keyCompromise
  | caCompromise
  | affiliationChanged
  | superseded
  | cessationOfOperation
  | certificateHold
  | removeFromCrl
  | privilegeWithdrawn
  | aaCompromise
  | unused
  deriving DecidableEq

/-- Modelled from the spec: `VALID_REVOCATION_REASONS` lives in
`pyhanko_certvalidator.revinfo.constants`, which is not part of the source
slice; the spec (section 4.5, step d) lists the complete reason set as
key_compromise, ca_compromise, affiliation_changed, superseded,
cessation_of_operation, certificate_hold, privilege_withdrawn,
aa_compromise. -/
def VALID_REVOCATION_REASONS : Finset Reason :=
  { Reason.keyCompromise, Reason.caCompromise, Reason.affiliationChanged,
    Reason.superseded, Reason.cessationOfOperation, Reason.certificateHold,
    Reason.privilegeWithdrawn, Reason.aaCompromise }

/-- Decidable equality for `Except` results (errors and values both
decidable). -/
instance {ε α : Type} [DecidableEq ε] [DecidableEq α] :
    DecidableEq (Except ε α)
  | Except.ok a, Except.ok b =>
    if h : a = b then isTrue (by rw [h])
    else isFalse (fun hc => h (Except.ok.inj hc))
  | Except.ok _, Except.error _ => isFalse (fun hc => Except.noConfusion hc)
  | Except.error _, Except.ok _ => isFalse (fun hc => Except.noConfusion hc)
  | Except.error a, Except.error b =>
    if h : a = b then isTrue (by rw [h])
    else isFalse (fun hc => h (Except.error.inj hc))

/-- Opaque relative distinguished name. -/
abbrev RDN := Nat

/-- A distinguished name, as the sequence of its RDNs
(`x509.Name.chosen`, an `RDNSequence`). -/
abbrev DirName := List RDN

/-! ## C2: `_check_validity` (`validate.py`) -/

inductive ValidityError where
  | notYetValid
  | expired
  deriving DecidableEq

/-- `_check_validity(validity, moment, tolerance, proc_state)`:
raises `NotYetValidError` when `moment < not_before - tolerance` and
`ExpiredError` when `moment > not_after + tolerance`. -/
def checkValidity (not_before not_after moment tolerance : Int) :
    Except ValidityError Unit :=
  if moment < not_before - tolerance then
    Except.error ValidityError.notYetValid
  else if not_after + tolerance < moment then
    Except.error ValidityError.expired
  else
    Except.ok ()

/-! ## C1: `_PathValidationState.init_pkix_validation_state` (`validate.py`)

Only the slice computing the initial inhibit/explicit flags and the
corresponding counters is modelled: the policy-set and subtree fields of
the state are handled by external helpers (`intersect_policy_sets`,
`PermittedSubtrees`, `ExcludedSubtrees`) and are not needed by any claim.
-/

/-- The three boolean standard PKIX parameters of `PKIXValidationParams`
read by the modelled slice. -/
structure PKIXFlagParams where
  initial_explicit_policy : Bool
  initial_any_policy_inhibit : Bool
  initial_policy_mapping_inhibit : Bool
  deriving DecidableEq

/-- Initial flag and counter state produced by step 1 of path validation. -/
structure InitFlagsCounters where
  initial_explicit_policy : Bool
  initial_any_policy_inhibit : Bool
  initial_policy_mapping_inhibit : Bool
  explicit_policy : Nat
  inhibit_any_policy : Nat
  policy_mapping : Nat
  deriving DecidableEq

set_option linter.unusedVariables false in
/-- The branch of `init_pkix_validation_state` taken when both the caller
parameters and the trust-anchor standard parameters are present
(`parameters is not None and trust_anchor_params is not None`).
The flag computations mirror the source literally: each flag is computed
as `parameters.<flag> and parameters.<flag>`, so the value of
`trust_anchor_params` is never consulted, even though the preceding
comment in the source reads
`need to make sure both sets of parameters are respected`. -/
def initPkixFlagsAndCounters (path_length : Nat)
    (trust_anchor_params parameters : PKIXFlagParams) : InitFlagsCounters :=
  let initial_any_policy_inhibit :=
    parameters.initial_any_policy_inhibit
      && parameters.initial_any_policy_inhibit
  let initial_explicit_policy :=
    parameters.initial_explicit_policy
      && parameters.initial_explicit_policy
  let initial_policy_mapping_inhibit :=
    parameters.initial_policy_mapping_inhibit
      && parameters.initial_policy_mapping_inhibit
  { initial_explicit_policy := initial_explicit_policy
    initial_any_policy_inhibit := initial_any_policy_inhibit
    initial_policy_mapping_inhibit := initial_policy_mapping_inhibit
    -- Steps 1 d-f
    explicit_policy :=
      if initial_explicit_policy then 0 else path_length + 1
    inhibit_any_policy :=
      if initial_any_policy_inhibit then 0 else path_length + 1
    policy_mapping :=
      if initial_policy_mapping_inhibit then 0 else path_length + 1 }

/-! ## C5 and C6: `POEManager` (`ltv/poe.py`) -/

/-- SHA-256 digest keys of the POE map. -/
abbrev Digest := List Nat

/-- `KnownPOE`: a digest together with its proof-of-existence time. -/
structure KnownPOE where
  digest : Digest
  poe_time : Int
  deriving DecidableEq

/-- The `_poes` dict of a `POEManager`: an insertion-ordered mapping from
digest to `KnownPOE`, modelled as an association list (Python dict keys
are unique; updating an existing key keeps its position). -/
structure POEManager where
  poes : List (Digest × KnownPOE)
  deriving DecidableEq

/-- Dict lookup `self._poes[digest]` (first matching key). -/
def poeLookup (m : List (Digest × KnownPOE)) (d : Digest) : Option KnownPOE :=
  (m.find? (fun e => e.1 = d)).map (fun e => e.2)

/-- Dict store `self._poes[digest] = poe`: replace the first entry with the
given key, or append when the key is absent. -/
def poeStore : List (Digest × KnownPOE) → Digest → KnownPOE →
    List (Digest × KnownPOE)
  | [], d, p => [(d, p)]
  | e :: rest, d, p =>
    if e.1 = d then (d, p) :: rest else e :: poeStore rest d p

/-- `POEManager.register_known_poe`: keep the stored POE when its time is
less than or equal to the new time, otherwise store the new POE; return
the oldest POE available for the digest. -/
def registerKnownPoe (m : POEManager) (known_poe : KnownPOE) :
    POEManager × KnownPOE :=
  match poeLookup m.poes known_poe.digest with
  | some cur_poe =>
    if cur_poe.poe_time ≤ known_poe.poe_time then
      (m, cur_poe)
    else
      (⟨poeStore m.poes known_poe.digest known_poe⟩, known_poe)
  | none => (⟨poeStore m.poes known_poe.digest known_poe⟩, known_poe)

/-- `POEManager.__iter__`: the stored POEs in insertion order. -/
def poeIter (m : POEManager) : List KnownPOE :=
  m.poes.map (fun e => e.2)

/-- The loop body of `POEManager.__ior__`: register every POE of `other`
into `self`, producing the mutated underlying object. -/
def iorRun (self other : POEManager) : POEManager :=
  (poeIter other).foldl (fun m p => (registerKnownPoe m p).1) self

/-- The Python statement `x |= y` rebinds `x` to the value returned by
`x.__ior__(y)`.  `POEManager.__ior__` has no return statement, so that
value is `None`.  The first component is the value bound to the left-hand
variable after the statement; the second is the mutated underlying
object (which the left-hand variable no longer references). -/
def iorAssign (self other : POEManager) : Option POEManager × POEManager :=
  (none, iorRun self other)

/-- Dict well-formedness: keys are unique, and `register_known_poe` only
ever stores a POE under its own digest, so each value carries its key. -/
def POEManager.WellFormed (m : POEManager) : Prop :=
  (m.poes.map Prod.fst).Nodup ∧ ∀ e ∈ m.poes, e.2.digest = e.1

instance (m : POEManager) : Decidable m.WellFormed := by
  unfold POEManager.WellFormed; infer_instance

/-- A sequence of `register_by_digest` calls for one digest with explicit
times; returns the final manager and the times of the returned POEs. -/
def registerSeq (m : POEManager) (d : Digest) : List Int → POEManager × List Int
  | [] => (m, [])
  | t :: ts =>
    let r := registerKnownPoe m ⟨d, t⟩
    let rest := registerSeq r.1 d ts
    (rest.1, r.2.poe_time :: rest.2)

/-- The minimum of the `(i+1)`-element prefix of a list of times
(`none` when the list is too short). -/
def prefMin (l : List Int) (i : Nat) : Option Int :=
  match l.take (i + 1) with
  | [] => none
  | x :: xs => some (xs.foldl min x)

/-! ## C4: `_check_revocation` (`validate.py`)

The per-CRL / per-OCSP failure message lists (`failures`) only feed the
text of the raised error messages; they are elided here and the raised
errors are identified by their raise site instead.
-/

/-- The named mode of a `RevocationCheckingRule`. -/
inductive RevRuleMode where
  | noCheck
  | checkIfDeclared
  | checkIfDeclaredSoft
  | crlRequired
  | ocspRequired
  | crlOrOcspRequired
  | crlAndOcspRequired
  deriving DecidableEq, Fintype

/-- Modelled from the spec: `RevocationCheckingRule` lives in
`pyhanko_certvalidator.policy_decl`, which is not part of the source
slice.  Per the spec (section 4.6) each rule exposes the booleans
`ocsp_relevant, ocsp_mandatory, crl_relevant, crl_mandatory, tolerant,
strict` and a named mode; `_check_revocation` reads exactly these
attributes, so the rule is modelled as that record. -/
structure RevocationCheckingRule where
  mode : RevRuleMode
  ocsp_relevant : Bool
  ocsp_mandatory : Bool
  crl_relevant : Bool
  crl_mandatory : Bool
  tolerant : Bool
  strict : Bool
  deriving DecidableEq

/-- Packaging equivalence used to derive finiteness of the rule record. -/
def revRuleEquivProd :
    RevocationCheckingRule ≃
      RevRuleMode × Bool × Bool × Bool × Bool × Bool × Bool where
  toFun r := (r.mode, r.ocsp_relevant, r.ocsp_mandatory, r.crl_relevant,
    r.crl_mandatory, r.tolerant, r.strict)
  invFun x := ⟨x.1, x.2.1, x.2.2.1, x.2.2.2.1, x.2.2.2.2.1, x.2.2.2.2.2.1,
    x.2.2.2.2.2.2⟩
  left_inv _ := rfl
  right_inv _ := rfl

instance : Fintype RevocationCheckingRule :=
  Fintype.ofEquiv _ revRuleEquivProd.symm

/-- Outcome of `verify_ocsp_response` as observed by the combinator:
normal return, `OCSPValidationIndeterminateError`, `OCSPNoMatchesError`,
or `OCSPFetchError`. -/
inductive OcspResult where
  | good
  | indeterminate
  | noMatch
  | fetchError
  deriving DecidableEq, Fintype

/-- Outcome of `verify_crl` as observed by the combinator:
normal return, `CRLValidationIndeterminateError`, `CRLNoMatchesError`,
or `CRLFetchError`. -/
inductive CrlCheckResult where
  | ok
  | indeterminate
  | noMatch
  | fetchError
  deriving DecidableEq, Fintype

/-- The errors `_check_revocation` can raise, identified by raise site. -/
inductive RevCheckError where
  | mandatoryOcspFailed
  | mandatoryCrlFailed
  | revChecksFailed
  | noRevinfoFound
  deriving DecidableEq, Fintype

/-- Packaging equivalence for the result type of `_check_revocation`. -/
def revResultEquivSum : Except RevCheckError Unit ≃ (RevCheckError ⊕ Unit) where
  toFun x := match x with
    | Except.error e => Sum.inl e
    | Except.ok u => Sum.inr u
  invFun x := match x with
    | Sum.inl e => Except.error e
    | Sum.inr u => Except.ok u
  left_inv x := by cases x <;> rfl
  right_inv x := by cases x <;> rfl

/-- Observable trace of one `_check_revocation` run:
the result, the value of the local `ocsp_status_good`, the value of the
local `status_good` (`none` when the run aborts before computing it), and
whether `verify_crl` was invoked. -/
structure RevCheckTrace where
  result : Except RevCheckError Unit
  ocspStatusGood : Bool
  statusGood : Option Bool
  crlInvoked : Bool
  deriving DecidableEq

/-- `_check_revocation(cert, validation_context, path, proc_state)`.
Inputs beyond the rule: whether the certificate declares CRL
distribution points and OCSP AIA entries (`get_declared_revinfo`), and
the outcomes of the external OCSP oracle and of `verify_crl`.
`RevokedError` raised by either check propagates out of the function and
is outside the modelled outcome space. -/
def checkRevocation (rule : RevocationCheckingRule)
    (cert_has_crl cert_has_ocsp : Bool)
    (ocsp : OcspResult) (crlCheck : CrlCheckResult) : RevCheckTrace :=
  let revinfo_declared := cert_has_crl || cert_has_ocsp
  -- OCSP phase: run the oracle when OCSP is relevant and declared;
  -- state: (ocsp_status_good, revocation_check_failed, ocsp_matched, soft_fail)
  let s0 : Bool × Bool × Bool × Bool :=
    if rule.ocsp_relevant && cert_has_ocsp then
      match ocsp with
      | OcspResult.good => (true, false, true, false)
      | OcspResult.indeterminate => (false, true, true, false)
      | OcspResult.noMatch => (false, false, false, false)
      | OcspResult.fetchError =>
        if rule.tolerant then (false, false, false, true)
        else (false, true, false, false)
    else (false, false, false, false)
  let ocsp_status_good := s0.1
  let ocsp_matched := s0.2.2.1
  if !ocsp_status_good && rule.ocsp_mandatory then
    { result := Except.error RevCheckError.mandatoryOcspFailed
      ocspStatusGood := ocsp_status_good
      statusGood := none
      crlInvoked := false }
  else
    -- `rev_rule != RevocationCheckingRule.CRL_AND_OCSP_REQUIRED`: the rule
    -- is an enum member, so equality with it is captured by the mode tag.
    let status_good :=
      ocsp_status_good && !(rule.mode == RevRuleMode.crlAndOcspRequired)
    let crl_required_by_policy :=
      rule.crl_mandatory ||
        (!status_good && (rule.mode == RevRuleMode.crlOrOcspRequired))
    let crl_fetchable := rule.crl_relevant && cert_has_crl
    let crl_invoked := crl_required_by_policy || (crl_fetchable && !status_good)
    -- CRL phase;
    -- state: (crl_status_good, revocation_check_failed, crl_matched, soft_fail)
    let s1 : Bool × Bool × Bool × Bool :=
      if crl_invoked then
        match crlCheck with
        | CrlCheckResult.ok => (true, false, true, s0.2.2.2)
        | CrlCheckResult.indeterminate => (false, true, true, s0.2.2.2)
        | CrlCheckResult.noMatch => (false, s0.2.1, false, s0.2.2.2)
        | CrlCheckResult.fetchError =>
          if rule.tolerant then (false, s0.2.1, false, true)
          else (false, true, false, s0.2.2.2)
      else (false, s0.2.1, false, s0.2.2.2)
    let crl_status_good := s1.1
    let revocation_check_failed := s1.2.1
    let crl_matched := s1.2.2.1
    let soft_fail := s1.2.2.2
    let expected_revinfo :=
      rule.strict ||
        (revinfo_declared && (rule.mode == RevRuleMode.checkIfDeclared))
    let matched := crl_matched || ocsp_matched
    let expected_revinfo_not_found := !matched && expected_revinfo
    -- the three remaining raise sites in source order; on none of them,
    -- the function returns normally
    { result :=
        if !crl_status_good && rule.crl_mandatory then
          Except.error RevCheckError.mandatoryCrlFailed
        else if !soft_fail &&
            (!status_good && matched && revocation_check_failed) then
          Except.error RevCheckError.revChecksFailed
        else if !soft_fail && expected_revinfo_not_found then
          Except.error RevCheckError.noRevinfoFound
        else
          Except.ok ()
      ocspStatusGood := ocsp_status_good
      statusGood := some status_good
      crlInvoked := crl_invoked }

/-- The boolean profile of `RevocationCheckingRule.CRL_AND_OCSP_REQUIRED`
(both checks relevant and mandatory, not tolerant, strict). -/
def crlAndOcspRequiredRule : RevocationCheckingRule :=
  { mode := RevRuleMode.crlAndOcspRequired
    ocsp_relevant := true
    ocsp_mandatory := true
    crl_relevant := true
    crl_mandatory := true
    tolerant := false
    strict := true }

/-! ## C7: `_check_ac_signature` (`validate.py`)

The signature-algorithm declarations are DER-encoded
`AlgorithmIdentifier` values.  asn1crypto compares their `.native`
decodings; `algIdNative` models that decoding for the fragment of DER
the comparison exercises: `SEQUENCE { OBJECT IDENTIFIER, parameters }`
with single-byte lengths, where both absent parameters and an explicit
`NULL` decode to a native parameter value of `None`.
-/

/-- Decoded (`.native`) view of an `AlgorithmIdentifier`. -/
structure AlgIdNative where
  oid : List Nat
  params : Option (List Nat)
  deriving DecidableEq

/-- Decode a DER `AlgorithmIdentifier` with single-byte lengths:
`30 len 06 l <oid bytes> [params]`, where absent parameters and the DER
`NULL` (`05 00`) both decode to `none`, matching the asn1crypto `.native`
view in which `Null.native` is `None`. -/
def algIdNative (b : List Nat) : Option AlgIdNative :=
  match b with
  | 0x30 :: len :: rest =>
    if rest.length = len then
      match rest with
      | 0x06 :: l :: tail =>
        if l ≤ tail.length then
          match tail.drop l with
          | [] => some ⟨tail.take l, none⟩
          | [0x05, 0x00] => some ⟨tail.take l, none⟩
          | ps => some ⟨tail.take l, some ps⟩
        else none
      | _ => none
    else none
  | _ => none

/-- Failure modes of `_check_ac_signature`, identified by raise site:
the three `InvalidAttrCertificateError` raises (algorithm-declaration
mismatch, PSS parameter mismatch, failed signature) and the
`WeakAlgorithmError` raise. -/
inductive AcSigFailure where
  | sigAlgoMismatch
  | weakAlgorithm
  | pssParamMismatch
  | invalidSignature
  deriving DecidableEq

/-- Outcome of the external cryptographic primitive `validate_sig`. -/
inductive SigVerifyResult where
  | ok
  | pssParameterMismatch
  | invalidSignature
  deriving DecidableEq

/-- `_check_ac_signature(attr_cert, aa_cert, validation_context)`:
first compares the `.native` decodings of the envelope
`signature_algorithm` and the inner `ac_info.signature` declaration;
then rejects weak hash algorithms (`hash_algo in weak_hash_algos`,
abstracted to a boolean input); finally consults `validate_sig`. -/
def checkAcSignature (sd_algo embedded_sd_algo : List Nat)
    (weak_hash : Bool) (sig : SigVerifyResult) : Except AcSigFailure Unit :=
  if algIdNative sd_algo ≠ algIdNative embedded_sd_algo then
    Except.error AcSigFailure.sigAlgoMismatch
  else if weak_hash then
    Except.error AcSigFailure.weakAlgorithm
  else
    match sig with
    | SigVerifyResult.ok => Except.ok ()
    | SigVerifyResult.pssParameterMismatch =>
      Except.error AcSigFailure.pssParamMismatch
    | SigVerifyResult.invalidSignature =>
      Except.error AcSigFailure.invalidSignature

/-- DER encoding of `AlgorithmIdentifier { sha256WithRSAEncryption }`
with the parameters field absent. -/
def sha256RsaAbsentParams : List Nat :=
  [0x30, 11, 0x06, 9, 0x2A, 0x86, 0x48, 0x86, 0xF7, 0x0D, 0x01, 0x01, 0x0B]

/-- DER encoding of `AlgorithmIdentifier { sha256WithRSAEncryption, NULL }`
with explicit `NULL` parameters. -/
def sha256RsaNullParams : List Nat :=
  [0x30, 13, 0x06, 9, 0x2A, 0x86, 0x48, 0x86, 0xF7, 0x0D, 0x01, 0x01, 0x0B,
   0x05, 0x00]

/-! ## C9: `_check_aa_controls` (`validate.py`) -/

/-- The slice of the `AAControls` extension value read by
`_check_aa_controls` (the permitted/excluded attribute lists are read
elsewhere). -/
structure AAControlsExt where
  path_len_constraint : Option Nat
  deriving DecidableEq

/-- The slice of `_PathValidationState` read and written by
`_check_aa_controls`. -/
structure AAState where
  aa_controls_used : Bool
  max_aa_path_length : Nat
  deriving DecidableEq

/-- The two `PathValidationError` raise sites of `_check_aa_controls`. -/
inductive AAControlsError where
  | appearedMidChain
  | missingAfterUse
  deriving DecidableEq

/-- `_check_aa_controls(cert, state, index, proc_state)`:
`aa_controls` is the decoded extension when the certificate carries it. -/
def checkAaControls (aa_controls : Option AAControlsExt) (state : AAState)
    (index : Nat) : Except AAControlsError AAState :=
  match aa_controls with
  | some ac =>
    if !state.aa_controls_used && index > 1 then
      Except.error AAControlsError.appearedMidChain
    else
      let state1 : AAState := { state with aa_controls_used := true }
      match ac.path_len_constraint with
      | some new_max_aa_path_length =>
        if new_max_aa_path_length < state1.max_aa_path_length then
          Except.ok { state1 with
            max_aa_path_length := new_max_aa_path_length }
        else
          Except.ok state1
      | none => Except.ok state1
  | none =>
    if state.aa_controls_used then
      Except.error AAControlsError.missingAfterUse
    else
      Except.ok state

/-! ## C8: `_get_crl_authority_name` (`revinfo/validate_crl.py`) -/

/-- A `DistributionPointName`: either a list of general names
(`full_name`) or a single RDN (`name_relative_to_crl_issuer`).  In the
`full_name` case only the inner name payload of each general name is
modelled, since the code unconditionally projects
`crl_idp_name.chosen[0].chosen`. -/
inductive DPName where
  | fullName (gens : List DirName)
  | nameRelativeToCrlIssuer (rdn : RDN)
  deriving DecidableEq

/-- The slice of the `issuing_distribution_point` extension read by
`_get_crl_authority_name`. -/
structure IssuingDistPoint where
  indirect_crl : Bool
  distribution_point : Option DPName
  deriving DecidableEq

/-- The slice of a `crl.CertificateList` read by
`_get_crl_authority_name`. -/
structure CertListSlice where
  issuing_distribution_point : Option IssuingDistPoint
  issuer : DirName
  authority_key_identifier : Option (List Nat)
  deriving DecidableEq

/-- Models the Python expression
`cert_issuer_name.copy().chosen.append(value)`:
the copy of the name is mutated in place, extending its RDN sequence
(first component), while `SequenceOf.append` — like `list.append` —
returns `None`, so the expression itself evaluates to `None`
(second component). -/
def copyChosenAppend (cert_issuer_name : DirName) (value : RDN) :
    DirName × Option DirName :=
  (cert_issuer_name ++ [value], none)

/-- `_get_crl_authority_name(certificate_list_with_poe, cert_issuer_name,
certificate_registry, errs)`.  The registry is abstracted to a lookup
from key identifier to the subject of the matching certificate.  The
`Except` error stands for the `LookupError` raise (also covering the
`IndexError` on an empty `full_name`, which Python treats as a
`LookupError` as well); the errs side channel is not modelled.  The
second component of the result is the computed authority name, `none`
standing for the Python value `None`. -/
def getCrlAuthorityName (certificate_list : CertListSlice)
    (cert_issuer_name : DirName)
    (registry : List Nat → Option DirName) :
    Except Unit (Bool × Option DirName) :=
  match certificate_list.issuing_distribution_point with
  | some crl_idp =>
    if crl_idp.indirect_crl then
      match crl_idp.distribution_point with
      | some (DPName.fullName gens) =>
        match gens with
        | g :: _ => Except.ok (true, some g)
        | [] => Except.error ()
      | some (DPName.nameRelativeToCrlIssuer rdn) =>
        -- `crl_authority_name = cert_issuer_name.copy().chosen.append(...)`
        Except.ok (true, (copyChosenAppend cert_issuer_name rdn).2)
      | none =>
        match certificate_list.authority_key_identifier with
        | some aki =>
          match registry aki with
          | some subj => Except.ok (true, some subj)
          | none => Except.error ()
        | none => Except.error ()
    else
      Except.ok (false, some certificate_list.issuer)
  | none => Except.ok (false, some certificate_list.issuer)

/-! ## C3: `verify_crl` / `_process_crl_completeness`
(`revinfo/validate_crl.py`)

The processing of one complete CRL (`_handle_single_crl`) involves
signature verification, recursive path validation and freshness policy;
for the completeness claim it is abstracted to its observable effect on
the main loop of `verify_crl`: the returned interim reasons (or `None`),
the failure messages appended to `errs.failures`, whether
`errs.issuer_failures` was incremented (each call increments it at most
once), and whether a `RevokedError` was raised instead of returning.
-/

/-- Observable effect of one `_handle_single_crl` call. -/
inductive SingleCRLStep where
  | done (interim : Option (Finset Reason)) (failures : List String)
      (issuerFail : Bool)
  | revokedAbort (failures : List String) (date : Int) (reason : Reason)
  deriving DecidableEq

/-- The `_CRLErrs` accumulator. -/
structure CRLErrs where
  failures : List String
  issuer_failures : Nat
  deriving DecidableEq

/-- Result of a `verify_crl` call: normal return, or one of the raises
(`RevokedError`, `CRLNoMatchesError`,
`CRLValidationIndeterminateError` with its failure list). -/
inductive VerifyCrlResult where
  | ok
  | revoked (date : Int) (reason : Reason)
  | noMatches
  | indeterminate (failures : List String)
  deriving DecidableEq

/-- The generic failure appended by `_process_crl_completeness` when no
other diagnostic was accumulated. -/
def reasonsNotCoveredMsg : String :=
  "The available CRLs do not cover all revocation reasons"

/-- `_process_crl_completeness(checked_reasons, total_crls, errs,
proc_state)`: subtract `unused`, then return `None` (no exception),
`CRLNoMatchesError`, or `CRLValidationIndeterminateError`. -/
def processCrlCompleteness (checked_reasons : Finset Reason)
    (total_crls : Nat) (errs : CRLErrs) : Option VerifyCrlResult :=
  let checked := checked_reasons \ {Reason.unused}
  if checked ≠ VALID_REVOCATION_REASONS then
    if total_crls = errs.issuer_failures then
      some VerifyCrlResult.noMatches
    else
      some (VerifyCrlResult.indeterminate
        (if errs.failures = [] then [reasonsNotCoveredMsg] else errs.failures))
  else
    none

/-- The main loop of `verify_crl`: process the complete CRLs in order,
accumulating `errs` and the union `checked_reasons`; a `RevokedError`
raised by `_handle_single_crl` aborts the loop. -/
def runCrls (errs : CRLErrs) (checked_reasons : Finset Reason) :
    List SingleCRLStep → Except (Int × Reason) (CRLErrs × Finset Reason)
  | [] => Except.ok (errs, checked_reasons)
  | SingleCRLStep.done interim fs issuerFail :: rest =>
    runCrls
      ⟨errs.failures ++ fs,
        errs.issuer_failures + (if issuerFail then 1 else 0)⟩
      (match interim with
        | some rs => checked_reasons ∪ rs
        | none => checked_reasons)
      rest
  | SingleCRLStep.revokedAbort _ date reason :: _ =>
    Except.error (date, reason)

/-- `verify_crl(cert, path, validation_context, ...)` after CRL
classification: `initFailures` are the failures recorded while
classifying the retrieved CRLs, `steps` the effects of processing each
complete CRL (so `total_crls = steps.length`). -/
def verifyCrlOutcome (initFailures : List String)
    (steps : List SingleCRLStep) : VerifyCrlResult :=
  let total_crls := steps.length
  match runCrls ⟨initFailures, 0⟩ ∅ steps with
  | Except.error (date, reason) => VerifyCrlResult.revoked date reason
  | Except.ok (errs, checked_reasons) =>
    match processCrlCompleteness checked_reasons total_crls errs with
    | some exc => exc
    | none => VerifyCrlResult.ok

/-- The interim reasons contributed by one step (`∅` for a skipped CRL). -/
def stepInterim : SingleCRLStep → Finset Reason
  | SingleCRLStep.done (some rs) _ _ => rs
  | SingleCRLStep.done none _ _ => ∅
  | SingleCRLStep.revokedAbort _ _ _ => ∅

/-- Whether the step failed issuer matching. -/
def stepIssuerFail : SingleCRLStep → Bool
  | SingleCRLStep.done _ _ b => b
  | SingleCRLStep.revokedAbort _ _ _ => false

/-- The failure messages contributed by one step. -/
def stepFailures : SingleCRLStep → List String
  | SingleCRLStep.done _ fs _ => fs
  | SingleCRLStep.revokedAbort fs _ _ => fs

/-- Whether the step returned (did not raise `RevokedError`). -/
def stepIsDone : SingleCRLStep → Bool
  | SingleCRLStep.done _ _ _ => true
  | SingleCRLStep.revokedAbort _ _ _ => false

/-- Union of the interim reason sets over all steps. -/
def unionInterims (steps : List SingleCRLStep) : Finset Reason :=
  steps.foldl (fun acc s => acc ∪ stepInterim s) ∅

/-- All failure messages accumulated across classification and the steps. -/
def accFailures (initFailures : List String)
    (steps : List SingleCRLStep) : List String :=
  initFailures ++ steps.flatMap stepFailures

/-- Number of steps that failed issuer matching. -/
def countIssuerFails (steps : List SingleCRLStep) : Nat :=
  steps.countP (fun s => stepIssuerFail s)

/-! ## C10: `_find_cert_in_list`, `_check_cert_on_crl_and_delta` and the
revocation raise of `_handle_single_crl` (`revinfo/validate_crl.py`) -/

/-- Extension identifiers, opaque. -/
abbrev ExtOid := Nat

/-- The slice of one entry of `revoked_certificates` read by
`_find_cert_in_list`: the critical entry extensions, the per-entry
`certificate_issuer` extension (`revoked_cert.issuer_name`), the serial
(`user_certificate`), the revocation date, and the optional `crl_reason`
entry extension. -/
structure RevokedCertEntry where
  critical_extensions : Finset ExtOid
  issuer_name : Option DirName
  user_certificate : Nat
  revocation_date : Int
  crl_reason : Option Reason
  deriving DecidableEq

/-- The carry-forward issuer update of one loop iteration of
`_find_cert_in_list`:
`if revoked_cert.issuer_name and revoked_cert.issuer_name !=
last_issuer_name: last_issuer_name = revoked_cert.issuer_name`. -/
def entryEffIssuer (last_issuer_name : DirName) (e : RevokedCertEntry) :
    DirName :=
  match e.issuer_name with
  | some n => if n ≠ last_issuer_name then n else last_issuer_name
  | none => last_issuer_name

/-- The loop of `_find_cert_in_list`, with the carried
`last_issuer_name` made explicit.  The `Except` error is the
`NotImplementedError` raised on an unknown critical entry extension. -/
def findCertScan (known_exts : Finset ExtOid) (cert_serial : Nat)
    (cert_issuer_name : DirName) (last_issuer_name : DirName) :
    List RevokedCertEntry → Except Unit (Option (Int × Reason))
  | [] => Except.ok none
  | e :: rest =>
    if ¬ e.critical_extensions ⊆ known_exts then
      Except.error ()
    else
      let last1 := entryEffIssuer last_issuer_name e
      if last1 ≠ cert_issuer_name then
        findCertScan known_exts cert_serial cert_issuer_name last1 rest
      else if e.user_certificate ≠ cert_serial then
        findCertScan known_exts cert_serial cert_issuer_name last1 rest
      else
        Except.ok (some (e.revocation_date,
          e.crl_reason.getD Reason.unspecified))

/-- `_find_cert_in_list(cert, cert_issuer_name, certificate_list,
crl_issuer)`: scan `revoked_certificates` with `last_issuer_name`
initialized to the subject of the CRL issuer. -/
def findCertInList (known_exts : Finset ExtOid) (cert_serial : Nat)
    (cert_issuer_name : DirName) (revoked_certificates : List RevokedCertEntry)
    (crl_issuer_subject : DirName) : Except Unit (Option (Int × Reason)) :=
  findCertScan known_exts cert_serial cert_issuer_name crl_issuer_subject
    revoked_certificates

/-- Step k of `_check_cert_on_crl_and_delta`: `remove_from_crl` cancels a
previously found revocation. -/
def stepRemoveFromCrl : Option (Int × Reason) → Option (Int × Reason)
  | some (_, Reason.removeFromCrl) => none
  | r => r

/-- `_check_cert_on_crl_and_delta(crl_issuer, cert, certificate_list,
delta_certificate_list, errs)`: search the delta first (when present),
then the base list when no revocation was found, then apply step k. -/
def checkCertOnCrlAndDelta (known_exts : Finset ExtOid) (cert_serial : Nat)
    (cert_issuer_name : DirName)
    (base_entries : List RevokedCertEntry)
    (delta_entries : Option (List RevokedCertEntry))
    (crl_issuer_subject : DirName) : Except Unit (Option (Int × Reason)) :=
  match delta_entries with
  | some ds =>
    match findCertInList known_exts cert_serial cert_issuer_name ds
        crl_issuer_subject with
    | Except.error () => Except.error ()
    | Except.ok (some r) => Except.ok (stepRemoveFromCrl (some r))
    | Except.ok none =>
      match findCertInList known_exts cert_serial cert_issuer_name
          base_entries crl_issuer_subject with
      | Except.error () => Except.error ()
      | Except.ok r => Except.ok (stepRemoveFromCrl r)
  | none =>
    match findCertInList known_exts cert_serial cert_issuer_name base_entries
        crl_issuer_subject with
    | Except.error () => Except.error ()
    | Except.ok r => Except.ok (stepRemoveFromCrl r)

/-- The tail of `_handle_single_crl`: `if revoked_reason: raise
RevokedError.format(reason=revoked_reason, revocation_dt=revoked_date,
...)`, else `return interim_reasons`.  A found revocation always carries
a (truthy) `CRLReason` object, so the check is on presence. -/
def handleRevocationResult (found : Option (Int × Reason))
    (interim_reasons : Finset Reason) : Except (Int × Reason) (Finset Reason) :=
  match found with
  | some (date, reason) => Except.error (date, reason)
  | none => Except.ok interim_reasons

/-- Running minimum of a list of times, starting from `c`:
element `i` is the minimum of `c` and the first `i + 1` list elements. -/
def prefixMinsFrom (c : Int) : List Int → List Int
  | [] => []
  | t :: ts => min c t :: prefixMinsFrom (min c t) ts

/-- The `last_issuer_name` value carried by the `_find_cert_in_list` loop
after processing a list of entries without finding a match. -/
def carryIssuer (last_issuer_name : DirName)
    (entries : List RevokedCertEntry) : DirName :=
  entries.foldl entryEffIssuer last_issuer_name

/-!
# Theorems

Helper lemmas first, then one theorem per claim (with witnesses and
counterexamples where applicable).
-/

/-- Looking up the key just stored finds the stored value. -/
theorem poeLookup_poeStore (l : List (Digest × KnownPOE)) (d : Digest)
    (p : KnownPOE) : poeLookup (poeStore l d p) d = some p := by
  induction l with
  | nil => simp [poeStore, poeLookup, List.find?]
  | cons e rest ih =>
    by_cases h : e.1 = d
    · simp [poeStore, h, poeLookup, List.find?]
    · simpa [poeStore, h, poeLookup, List.find?] using ih

/-- In an association list with unique keys, `find?` on the key of a
member returns that member. -/
theorem find?_of_nodup_keys (l : List (Digest × KnownPOE)) (d : Digest)
    (p : KnownPOE) (hnd : (l.map Prod.fst).Nodup) (hmem : (d, p) ∈ l) :
    l.find? (fun e => e.1 = d) = some (d, p) := by
  induction l with
  | nil => cases hmem
  | cons e rest ih =>
    rcases List.mem_cons.mp hmem with heq | htail
    · subst heq
      simp [List.find?]
    · have hkey : e.1 ≠ d := by
        intro hk
        have : d ∈ rest.map Prod.fst :=
          List.mem_map.mpr ⟨(d, p), htail, rfl⟩
        rw [List.map_cons, List.nodup_cons, hk] at hnd
        exact hnd.1 this
      have hnd' : (rest.map Prod.fst).Nodup := by
        rw [List.map_cons, List.nodup_cons] at hnd
        exact hnd.2
      simpa [List.find?, hkey] using ih hnd' htail

/-- Registering a POE already stored in a well-formed manager returns the
stored POE and leaves the manager unchanged. -/
theorem registerKnownPoe_mem_self (m : POEManager) (p : KnownPOE)
    (hwf : m.WellFormed) (hmem : p ∈ poeIter m) :
    registerKnownPoe m p = (m, p) := by
  rcases List.mem_map.mp hmem with ⟨e, hemem, hval⟩
  have hdig : p.digest = e.1 := by rw [← hval]; exact hwf.2 e hemem
  have hfind : m.poes.find? (fun x => x.1 = p.digest) = some (e.1, p) := by
    rw [hdig]
    exact find?_of_nodup_keys m.poes e.1 p hwf.1
      (by rw [← hval]; simpa using hemem)
  unfold registerKnownPoe
  rw [poeLookup, hfind]
  simp

/-- Folding a function that fixes the accumulator over a list returns the
accumulator. -/
theorem foldl_fixed_of_id {α β : Type} (f : α → β → α) (a : α) (l : List β)
    (h : ∀ x ∈ l, f a x = a) : l.foldl f a = a := by
  induction l with
  | nil => rfl
  | cons x rest ih =>
    rw [List.foldl_cons, h x (List.mem_cons_self x rest)]
    exact ih (fun y hy => h y (List.mem_cons_of_mem x hy))

/-- C5: merging a well-formed `POEManager` with itself leaves the
underlying digest-to-POE mapping unchanged, but because `__ior__` returns
`None`, the Python statement `m |= m` rebinds `m` to `None`, not to that
manager. -/
theorem poe_ior_self (m : POEManager) (hwf : m.WellFormed) :
    iorAssign m m = (none, m) := by
  unfold iorAssign iorRun
  have : (poeIter m).foldl (fun s p => (registerKnownPoe s p).1) m = m := by
    refine foldl_fixed_of_id _ m (poeIter m) (fun p hp => ?_)
    rw [registerKnownPoe_mem_self m p hwf hp]
  rw [this]

/-- C5 witness: a concrete well-formed manager with one POE. -/
theorem poe_ior_self_witness :
    iorAssign ⟨[([0], ⟨[0], 5⟩)]⟩ ⟨[([0], ⟨[0], 5⟩)]⟩ =
      (none, ⟨[([0], ⟨[0], 5⟩)]⟩) :=
  poe_ior_self ⟨[([0], ⟨[0], 5⟩)]⟩ (by constructor <;> simp)

/-- Registering time `t` for a digest stored with time `c` stores and
returns the POE with time `min c t`. -/
theorem registerKnownPoe_lookup_some (m : POEManager) (d : Digest)
    (c t : Int) (h : poeLookup m.poes d = some ⟨d, c⟩) :
    poeLookup ((registerKnownPoe m ⟨d, t⟩).1).poes d = some ⟨d, min c t⟩ ∧
    (registerKnownPoe m ⟨d, t⟩).2 = ⟨d, min c t⟩ := by
  unfold registerKnownPoe
  simp only [h]
  by_cases hle : c ≤ t
  · simp only [hle, if_true]
    rw [min_eq_left hle]
    exact ⟨h, rfl⟩
  · simp only [hle, if_false]
    rw [min_eq_right (le_of_lt (lt_of_not_le hle))]
    exact ⟨poeLookup_poeStore m.poes d ⟨d, t⟩, rfl⟩

/-- After a sequence of registrations for a digest stored with time `c`,
the stored time is the minimum of `c` and all supplied times, and the
returned times are the running minima. -/
theorem registerSeq_aux (d : Digest) :
    ∀ (ts : List Int) (m : POEManager) (c : Int),
    poeLookup m.poes d = some ⟨d, c⟩ →
    (registerSeq m d ts).2 = prefixMinsFrom c ts ∧
    poeLookup ((registerSeq m d ts).1).poes d = some ⟨d, ts.foldl min c⟩ := by
  intro ts
  induction ts with
  | nil => intro m c h; exact ⟨rfl, h⟩
  | cons t ts ih =>
    intro m c h
    have hreg := registerKnownPoe_lookup_some m d c t h
    have hrec := ih (registerKnownPoe m ⟨d, t⟩).1 (min c t) hreg.1
    unfold registerSeq
    refine ⟨?_, ?_⟩
    · simp only [hrec.1, hreg.2, prefixMinsFrom]
    · simpa using hrec.2

/-- Element `i` of `prefixMinsFrom c ts` is the minimum of `c` and the
first `i + 1` elements of `ts`. -/
theorem prefixMinsFrom_get? :
    ∀ (ts : List Int) (c : Int) (i : Nat), i < ts.length →
    (prefixMinsFrom c ts).get? i = some ((ts.take (i + 1)).foldl min c) := by
  intro ts
  induction ts with
  | nil => intro c i h; cases h
  | cons t ts ih =>
    intro c i h
    cases i with
    | zero => simp [prefixMinsFrom]
    | succ j =>
      have hj : j < ts.length := Nat.lt_of_succ_lt_succ h
      simpa [prefixMinsFrom, List.take_succ_cons] using ih (min c t) j hj

/-- C6: starting from a manager with no POE for digest `d`, after a
sequence of `register` calls with times `t :: ts` the stored time for `d`
is the minimum of all supplied times, and the POE returned by call `i`
carries the minimum of the first `i + 1` supplied times (the oldest time
available at that point). -/
theorem poe_register_sequence_min (m : POEManager) (d : Digest) (t : Int)
    (ts : List Int) (h : poeLookup m.poes d = none) :
    poeLookup ((registerSeq m d (t :: ts)).1).poes d =
      some ⟨d, ts.foldl min t⟩ ∧
    ∀ i, i < ts.length + 1 →
      ((registerSeq m d (t :: ts)).2).get? i = prefMin (t :: ts) i := by
  have hfirst : registerKnownPoe m ⟨d, t⟩ =
      (⟨poeStore m.poes d ⟨d, t⟩⟩, ⟨d, t⟩) := by
    unfold registerKnownPoe
    simp [h]
  have hlook : poeLookup (⟨poeStore m.poes d ⟨d, t⟩⟩ : POEManager).poes d =
      some ⟨d, t⟩ := poeLookup_poeStore m.poes d ⟨d, t⟩
  have haux := registerSeq_aux d ts ⟨poeStore m.poes d ⟨d, t⟩⟩ t hlook
  have hseq : registerSeq m d (t :: ts) =
      ((registerSeq ⟨poeStore m.poes d ⟨d, t⟩⟩ d ts).1,
        t :: (registerSeq ⟨poeStore m.poes d ⟨d, t⟩⟩ d ts).2) := by
    conv_lhs => rw [registerSeq]
    rw [hfirst]
  refine ⟨?_, ?_⟩
  · rw [hseq]
    exact haux.2
  · intro i hi
    rw [hseq]
    simp only [haux.1]
    cases i with
    | zero => simp [prefMin]
    | succ j =>
      have hj : j < ts.length := Nat.lt_of_succ_lt_succ hi
      have := prefixMinsFrom_get? ts t j hj
      simp only [List.get?_cons_succ, this, prefMin, List.take_succ_cons]

/-- C6 witness: registering times `3, 1, 2` for a fresh digest stores
time `1`, and the second call already returns `1`. -/
theorem poe_register_sequence_min_witness :
    poeLookup ((registerSeq ⟨[]⟩ [0] [3, 1, 2]).1).poes [0] =
      some ⟨[0], [1, 2].foldl min 3⟩ ∧
    ((registerSeq ⟨[]⟩ [0] [3, 1, 2]).2).get? 1 = prefMin [3, 1, 2] 1 := by
  have h := poe_register_sequence_min ⟨[]⟩ [0] 3 [1, 2] (by rfl)
  exact ⟨h.1, h.2 1 (by decide)⟩

/-- C1: evaluation of `init_pkix_validation_state` at caller parameters
with all three initial flags set and trust-anchor standard parameters
with all three flags clear, at `path_length = 2`.  The AND-combination
of the two flag sources is `false` for each flag, so per the claim each
counter must start at `path_length + 1 = 3`; the code computes each flag
as the caller flag ANDed with itself, ignores the anchor, and starts
every counter at `0`. -/
theorem initPkix_ignores_anchor_flags :
    (initPkixFlagsAndCounters 2 ⟨false, false, false⟩
      ⟨true, true, true⟩).explicit_policy = 0 ∧
    (initPkixFlagsAndCounters 2 ⟨false, false, false⟩
      ⟨true, true, true⟩).inhibit_any_policy = 0 ∧
    (initPkixFlagsAndCounters 2 ⟨false, false, false⟩
      ⟨true, true, true⟩).policy_mapping = 0 ∧
    ((⟨true, true, true⟩ : PKIXFlagParams).initial_explicit_policy &&
      (⟨false, false, false⟩ : PKIXFlagParams).initial_explicit_policy)
        = false ∧
    ((⟨true, true, true⟩ : PKIXFlagParams).initial_any_policy_inhibit &&
      (⟨false, false, false⟩ : PKIXFlagParams).initial_any_policy_inhibit)
        = false ∧
    ((⟨true, true, true⟩ : PKIXFlagParams).initial_policy_mapping_inhibit &&
      (⟨false, false, false⟩ : PKIXFlagParams).initial_policy_mapping_inhibit)
        = false := by
  decide

/-- C2 counterexample: for the (degenerate but representable) validity
period `not_before = 1, not_after = 0` with `tolerance = 0`, the moment
`1` equals `not_before - tolerance`, yet `_check_validity` raises
`ExpiredError` instead of succeeding, because the `Expired` branch only
checks `moment > not_after + tolerance`. -/
theorem checkValidity_nb_boundary_not_ok :
    checkValidity 1 0 1 0 = Except.error ValidityError.expired := by
  decide

/-- C2 amended: whenever the tolerance-adjusted window is nonempty
(`not_before - tolerance ≤ not_after + tolerance`), the validity check
succeeds at both boundaries, fails with `NotYetValid` exactly when
`moment < not_before - tolerance`, and fails with `Expired` exactly when
`moment > not_after + tolerance`. -/
theorem checkValidity_boundaries (not_before not_after moment tolerance : Int)
    (h : not_before - tolerance ≤ not_after + tolerance) :
    checkValidity not_before not_after (not_before - tolerance) tolerance =
      Except.ok () ∧
    checkValidity not_before not_after (not_after + tolerance) tolerance =
      Except.ok () ∧
    (checkValidity not_before not_after moment tolerance =
        Except.error ValidityError.notYetValid ↔
      moment < not_before - tolerance) ∧
    (checkValidity not_before not_after moment tolerance =
        Except.error ValidityError.expired ↔
      not_after + tolerance < moment) := by
  unfold checkValidity
  refine ⟨?_, ?_, ?_, ?_⟩
  · split_ifs with h1 h2 <;> first | rfl | omega
  · split_ifs with h1 h2 <;> first | rfl | omega
  · split_ifs with h1 h2 <;> simp <;> omega
  · split_ifs with h1 h2 <;> simp <;> omega

/-- C2 amended, witness: `not_before = 0, not_after = 0, tolerance = 5`;
the check succeeds at moment `0 - 5` and fails `Expired` at moment `7`. -/
theorem checkValidity_boundaries_witness :
    checkValidity 0 0 (0 - 5) 5 = Except.ok () ∧
    (checkValidity 0 0 7 5 = Except.error ValidityError.expired ↔
      (0 : Int) + 5 < 7) :=
  ⟨(checkValidity_boundaries 0 0 7 5 (by decide)).1,
    (checkValidity_boundaries 0 0 7 5 (by decide)).2.2.2⟩

/-- C7 counterexample: two DER encodings of the sha256-RSA signature
algorithm declaration, one with absent parameters and one with explicit
`NULL` parameters, are not byte-for-byte equal, yet `_check_ac_signature`
accepts the pair (their `.native` decodings coincide), contradicting the
claim that any encoded-equality mismatch fails before signature
verification. -/
theorem acSig_byte_mismatch_accepted :
    checkAcSignature sha256RsaAbsentParams sha256RsaNullParams false
      SigVerifyResult.ok = Except.ok () ∧
    sha256RsaAbsentParams ≠ sha256RsaNullParams := by
  decide

/-- C7 amended: the declaration match is by decoded (`.native`) value
equality, which identifies absent and `NULL` parameters, not by DER byte
equality: the check fails with the invalid-attribute-certificate
algorithm-mismatch error exactly when the decoded values differ (and
then does so for every outcome of the signature primitive, i.e. before
any signature verification), and byte-for-byte equal declarations never
trip it. -/
theorem acSig_native_equality_gate (sd_algo embedded_sd_algo : List Nat)
    (weak_hash : Bool) (sig : SigVerifyResult) :
    (checkAcSignature sd_algo embedded_sd_algo weak_hash sig =
        Except.error AcSigFailure.sigAlgoMismatch ↔
      algIdNative sd_algo ≠ algIdNative embedded_sd_algo) ∧
    (sd_algo = embedded_sd_algo →
      checkAcSignature sd_algo embedded_sd_algo weak_hash sig ≠
        Except.error AcSigFailure.sigAlgoMismatch) := by
  constructor
  · unfold checkAcSignature
    by_cases h : algIdNative sd_algo = algIdNative embedded_sd_algo
    · rw [if_neg (not_not_intro h)]
      constructor
      · intro hres
        exfalso
        cases weak_hash <;> cases sig <;> simp_all
      · intro hne
        exact absurd h hne
    · rw [if_pos h]
      simp [h]
  · intro heq
    subst heq
    unfold checkAcSignature
    rw [if_neg (not_not_intro rfl)]
    cases weak_hash <;> cases sig <;> simp

/-- C7 amended, witness: byte-for-byte equal declarations do not trip the
algorithm-mismatch error. -/
theorem acSig_native_equality_gate_witness :
    checkAcSignature sha256RsaAbsentParams sha256RsaAbsentParams false
      SigVerifyResult.ok ≠ Except.error AcSigFailure.sigAlgoMismatch :=
  (acSig_native_equality_gate sha256RsaAbsentParams sha256RsaAbsentParams
    false SigVerifyResult.ok).2 rfl

/-- C9: the three guarantees of `_check_aa_controls`: an `aa_controls`
extension first appearing at an index greater than 1 fails; a missing
`aa_controls` extension after `aa_controls_used` was set fails; and on a
successful run carrying a `path_len_constraint` smaller than the current
`max_aa_path_length`, the counter is clamped to that value (and
`aa_controls_used` is set). -/
theorem aa_controls_spec (ac : AAControlsExt) (state : AAState)
    (index v : Nat) :
    (state.aa_controls_used = false → 1 < index →
      checkAaControls (some ac) state index =
        Except.error AAControlsError.appearedMidChain) ∧
    (state.aa_controls_used = true →
      checkAaControls none state index =
        Except.error AAControlsError.missingAfterUse) ∧
    ((state.aa_controls_used = true ∨ index ≤ 1) →
      ac.path_len_constraint = some v → v < state.max_aa_path_length →
      checkAaControls (some ac) state index =
        Except.ok ⟨true, v⟩) := by
  refine ⟨?_, ?_, ?_⟩
  · intro hused hidx
    unfold checkAaControls
    rw [hused]
    simp [hidx]
  · intro hused
    unfold checkAaControls
    rw [hused]
    simp
  · intro hok hplc hlt
    unfold checkAaControls
    have hcond : (!state.aa_controls_used && decide (index > 1)) = false := by
      rcases hok with hused | hidx
      · rw [hused]; rfl
      · have : ¬ (index > 1) := by omega
        simp [this]
    rw [hcond]
    simp only [Bool.false_eq_true, if_false, hplc]
    rw [if_pos hlt]

/-- C9 witness: at index 1 with an unused state, `path_len_constraint = 2`
clamps `max_aa_path_length` from 5 to 2; at index 2 a first appearance
fails; a missing extension after use fails. -/
theorem aa_controls_spec_witness :
    checkAaControls (some ⟨some 2⟩) ⟨false, 5⟩ 1 = Except.ok ⟨true, 2⟩ ∧
    checkAaControls (some ⟨some 2⟩) ⟨false, 5⟩ 2 =
      Except.error AAControlsError.appearedMidChain ∧
    checkAaControls none ⟨true, 5⟩ 3 =
      Except.error AAControlsError.missingAfterUse :=
  ⟨(aa_controls_spec ⟨some 2⟩ ⟨false, 5⟩ 1 2).2.2 (Or.inr (by decide)) rfl
      (by decide),
    (aa_controls_spec ⟨some 2⟩ ⟨false, 5⟩ 2 2).1 rfl (by decide),
    (aa_controls_spec ⟨some 2⟩ ⟨true, 5⟩ 3 2).2.1 rfl⟩

/-- C8: for an indirect CRL whose issuing-distribution-point name is in
`name_relative_to_crl_issuer` form, the authority name computed by
`_get_crl_authority_name` is the value of
`cert_issuer_name.copy().chosen.append(...)`, which is `None` — not a
directory name — because `SequenceOf.append` mutates the copy and
returns `None`; the extended name (the certificate issuer RDN sequence
plus the relative RDN) is built only on the discarded copy. -/
theorem crl_authority_name_relative_is_none (cert_issuer_name : DirName)
    (rdn : RDN) (crl_issuer_dn : DirName) (aki : Option (List Nat))
    (registry : List Nat → Option DirName) :
    getCrlAuthorityName
        ⟨some ⟨true, some (DPName.nameRelativeToCrlIssuer rdn)⟩,
          crl_issuer_dn, aki⟩
        cert_issuer_name registry = Except.ok (true, none) ∧
    (copyChosenAppend cert_issuer_name rdn).1 = cert_issuer_name ++ [rdn] :=
  ⟨rfl, rfl⟩

/-- C4 counterexample: under the `CRL_AND_OCSP_REQUIRED` rule (both
checks mandatory), a certificate declaring both kinds of revocation
info, and an OCSP check that finds no matching response,
`_check_revocation` raises at the mandatory-OCSP step before ever
reaching the CRL phase — so `verify_crl` is not invoked even though
`crl_mandatory` holds, contradicting the claimed invocation condition. -/
theorem checkRevocation_mandatory_crl_not_invoked :
    (checkRevocation crlAndOcspRequiredRule true true OcspResult.noMatch
      CrlCheckResult.ok).crlInvoked = false ∧
    crlAndOcspRequiredRule.crl_mandatory = true ∧
    (checkRevocation crlAndOcspRequiredRule true true OcspResult.noMatch
      CrlCheckResult.ok).result =
      Except.error RevCheckError.mandatoryOcspFailed := by
  decide

set_option maxHeartbeats 2000000 in
/-- C4 amended: `status_good` is true exactly when the OCSP check
produced a good status and the rule is not `CRL_AND_OCSP_REQUIRED`; and
the CRL check is invoked exactly when the mandatory-OCSP step did not
already abort (not both `ocsp_mandatory` and a non-good OCSP status)
and the claimed condition holds: `crl_mandatory`, or the rule is
`CRL_OR_OCSP_REQUIRED` with `status_good` false, or CRL is relevant, the
certificate declares CRL distribution points and `status_good` is
false. -/
theorem checkRevocation_status_good_and_crl_invocation :
    ∀ (rule : RevocationCheckingRule) (cert_has_crl cert_has_ocsp : Bool)
      (ocsp : OcspResult) (crlCheck : CrlCheckResult),
    ((checkRevocation rule cert_has_crl cert_has_ocsp ocsp
        crlCheck).statusGood = some true ↔
      ((checkRevocation rule cert_has_crl cert_has_ocsp ocsp
        crlCheck).ocspStatusGood = true ∧
        rule.mode ≠ RevRuleMode.crlAndOcspRequired)) ∧
    ((checkRevocation rule cert_has_crl cert_has_ocsp ocsp
        crlCheck).crlInvoked = true ↔
      (¬ ((checkRevocation rule cert_has_crl cert_has_ocsp ocsp
            crlCheck).ocspStatusGood = false ∧
          rule.ocsp_mandatory = true)) ∧
      (rule.crl_mandatory = true ∨
        (rule.mode = RevRuleMode.crlOrOcspRequired ∧
          (checkRevocation rule cert_has_crl cert_has_ocsp ocsp
            crlCheck).statusGood = some false) ∨
        (rule.crl_relevant = true ∧ cert_has_crl = true ∧
          (checkRevocation rule cert_has_crl cert_has_ocsp ocsp
            crlCheck).statusGood = some false))) := by
  intro rule cert_has_crl cert_has_ocsp ocsp crlCheck
  obtain ⟨mode, orel, om, crel, cm, tol, str⟩ := rule
  cases orel <;> cases om <;> cases tol <;> cases cert_has_ocsp <;>
    cases ocsp <;> cases mode <;>
      simp +decide [checkRevocation]

/-- Folding the interim-reason union over steps starting from any
accumulator. -/
theorem foldl_union_interims (steps : List SingleCRLStep) :
    ∀ acc : Finset Reason,
    steps.foldl (fun a s => a ∪ stepInterim s) acc =
      acc ∪ unionInterims steps := by
  induction steps with
  | nil => intro acc; simp [unionInterims]
  | cons s rest ih =>
    intro acc
    have hcons : unionInterims (s :: rest) =
        stepInterim s ∪ unionInterims rest := by
      show List.foldl (fun a x => a ∪ stepInterim x) ∅ (s :: rest) = _
      rw [List.foldl_cons, ih (∅ ∪ stepInterim s), Finset.empty_union]
    rw [List.foldl_cons, ih (acc ∪ stepInterim s), hcons, Finset.union_assoc]

/-- When no step aborts with a revocation, the main loop of `verify_crl`
returns the accumulated failures, the count of issuer failures, and the
union of the interim reason sets. -/
theorem runCrls_all_done (steps : List SingleCRLStep) :
    ∀ (f0 : List String) (n0 : Nat) (c0 : Finset Reason),
    (∀ s ∈ steps, stepIsDone s = true) →
    runCrls ⟨f0, n0⟩ c0 steps =
      Except.ok (⟨f0 ++ steps.flatMap stepFailures,
        n0 + countIssuerFails steps⟩, c0 ∪ unionInterims steps) := by
  induction steps with
  | nil =>
    intro f0 n0 c0 _
    simp [runCrls, unionInterims, countIssuerFails]
  | cons s rest ih =>
    intro f0 n0 c0 hdone
    cases s with
    | revokedAbort fs date reason =>
      exact absurd (hdone _ (List.mem_cons_self _ _)) (by simp [stepIsDone])
    | done interim fs issuerFail =>
      have hrest : ∀ x ∈ rest, stepIsDone x = true :=
        fun x hx => hdone x (List.mem_cons_of_mem _ hx)
      have h1 : (f0 ++ fs) ++ rest.flatMap stepFailures =
          f0 ++ (SingleCRLStep.done interim fs issuerFail ::
            rest).flatMap stepFailures := by
        rw [List.append_assoc]
        rfl
      have h2 : (n0 + if issuerFail then 1 else 0) + countIssuerFails rest =
          n0 + countIssuerFails
            (SingleCRLStep.done interim fs issuerFail :: rest) := by
        rw [countIssuerFails, countIssuerFails, List.countP_cons]
        simp only [stepIssuerFail]
        cases issuerFail <;> simp +arith
      have hcons : unionInterims
          (SingleCRLStep.done interim fs issuerFail :: rest) =
          stepInterim (SingleCRLStep.done interim fs issuerFail) ∪
            unionInterims rest := by
        show List.foldl (fun a x => a ∪ stepInterim x) ∅ _ = _
        rw [List.foldl_cons, foldl_union_interims rest, Finset.empty_union]
      cases interim with
      | some rs =>
        have hstep : runCrls ⟨f0, n0⟩ c0
            (SingleCRLStep.done (some rs) fs issuerFail :: rest) =
            runCrls ⟨f0 ++ fs, n0 + if issuerFail then 1 else 0⟩
              (c0 ∪ rs) rest := rfl
        rw [hstep, ih (f0 ++ fs) (n0 + if issuerFail then 1 else 0)
          (c0 ∪ rs) hrest, hcons]
        simp only [stepInterim]
        rw [h1, h2, Finset.union_assoc]
      | none =>
        have hstep : runCrls ⟨f0, n0⟩ c0
            (SingleCRLStep.done none fs issuerFail :: rest) =
            runCrls ⟨f0 ++ fs, n0 + if issuerFail then 1 else 0⟩
              c0 rest := rfl
        rw [hstep, ih (f0 ++ fs) (n0 + if issuerFail then 1 else 0)
          c0 hrest, hcons]
        simp only [stepInterim]
        rw [h1, h2, Finset.empty_union]

/-- C3: with no revocation abort, `verify_crl` returns normally exactly
when the union of the interim reason sets of all processed complete
CRLs, minus `unused`, equals the full reason set; otherwise it raises
`CRLNoMatchesError` when every processed complete CRL failed issuer
matching, and otherwise raises `CRLValidationIndeterminateError`
carrying the accumulated per-CRL failure diagnostics (or the generic
reasons-not-covered diagnostic when none were accumulated). -/
theorem verify_crl_completeness (initFailures : List String)
    (steps : List SingleCRLStep)
    (hdone : ∀ s ∈ steps, stepIsDone s = true) :
    (verifyCrlOutcome initFailures steps = VerifyCrlResult.ok ↔
      unionInterims steps \ {Reason.unused} = VALID_REVOCATION_REASONS) ∧
    (unionInterims steps \ {Reason.unused} ≠ VALID_REVOCATION_REASONS →
      ((∀ s ∈ steps, stepIssuerFail s = true) →
        verifyCrlOutcome initFailures steps = VerifyCrlResult.noMatches) ∧
      (¬ (∀ s ∈ steps, stepIssuerFail s = true) →
        verifyCrlOutcome initFailures steps =
          VerifyCrlResult.indeterminate
            (if accFailures initFailures steps = []
              then [reasonsNotCoveredMsg]
              else accFailures initFailures steps))) := by
  have hrun := runCrls_all_done steps initFailures 0 ∅ hdone
  have hout : verifyCrlOutcome initFailures steps =
      match processCrlCompleteness (unionInterims steps) steps.length
        ⟨accFailures initFailures steps, countIssuerFails steps⟩ with
      | some exc => exc
      | none => VerifyCrlResult.ok := by
    rw [verifyCrlOutcome, hrun]
    simp [accFailures, Finset.empty_union]
  by_cases hcov : unionInterims steps \ {Reason.unused} =
      VALID_REVOCATION_REASONS
  · have hproc : processCrlCompleteness (unionInterims steps) steps.length
        ⟨accFailures initFailures steps, countIssuerFails steps⟩ = none := by
      rw [processCrlCompleteness]
      simp [hcov]
    constructor
    · rw [hout, hproc]
      simp [hcov]
    · intro hne
      exact absurd hcov hne
  · have hproc : processCrlCompleteness (unionInterims steps) steps.length
        ⟨accFailures initFailures steps, countIssuerFails steps⟩ =
        some (if steps.length = countIssuerFails steps
          then VerifyCrlResult.noMatches
          else VerifyCrlResult.indeterminate
            (if accFailures initFailures steps = []
              then [reasonsNotCoveredMsg]
              else accFailures initFailures steps)) := by
      rw [processCrlCompleteness]
      simp only [hcov, ne_eq, not_false_eq_true, if_true]
      by_cases hall : steps.length = countIssuerFails steps <;> simp [hall]
    have hcount : (steps.length = countIssuerFails steps) ↔
        (∀ s ∈ steps, stepIssuerFail s = true) := by
      rw [countIssuerFails]
      constructor
      · intro h
        exact List.countP_eq_length.mp h.symm
      · intro h
        exact (List.countP_eq_length.mpr h).symm
    constructor
    · rw [hout, hproc]
      constructor
      · intro hok
        by_cases hall : steps.length = countIssuerFails steps <;>
          simp [hall] at hok
      · intro hc
        exact absurd hc hcov
    · intro _
      constructor
      · intro hall
        rw [hout, hproc, if_pos (hcount.mpr hall)]
      · intro hnall
        rw [hout, hproc, if_neg (fun hc => hnall (hcount.mp hc))]

/-- C3 witness: one processed CRL covering the full reason set yields a
normal return. -/
theorem verify_crl_completeness_witness :
    verifyCrlOutcome []
      [SingleCRLStep.done (some VALID_REVOCATION_REASONS) [] false] =
      VerifyCrlResult.ok :=
  (verify_crl_completeness []
    [SingleCRLStep.done (some VALID_REVOCATION_REASONS) [] false]
    (by intro s hs; simp at hs; simp [hs, stepIsDone])).1.mpr (by decide)

/-- When the scan of a prefix finds nothing, scanning the concatenation
continues on the suffix with the carried issuer name. -/
theorem findCertScan_append (known_exts : Finset ExtOid) (cert_serial : Nat)
    (cert_issuer_name : DirName) :
    ∀ (pre rest : List RevokedCertEntry) (last_issuer_name : DirName),
    findCertScan known_exts cert_serial cert_issuer_name last_issuer_name
      pre = Except.ok none →
    findCertScan known_exts cert_serial cert_issuer_name last_issuer_name
      (pre ++ rest) =
      findCertScan known_exts cert_serial cert_issuer_name
        (carryIssuer last_issuer_name pre) rest := by
  intro pre
  induction pre with
  | nil =>
    intro rest last _
    rfl
  | cons e pre ih =>
    intro rest last hscan
    rw [findCertScan] at hscan
    by_cases hext : ¬ e.critical_extensions ⊆ known_exts
    · rw [if_pos hext] at hscan
      cases hscan
    · rw [if_neg hext] at hscan
      have hstep : findCertScan known_exts cert_serial cert_issuer_name last
          ((e :: pre) ++ rest) =
          (if ¬ e.critical_extensions ⊆ known_exts then Except.error ()
          else if entryEffIssuer last e ≠ cert_issuer_name then
            findCertScan known_exts cert_serial cert_issuer_name
              (entryEffIssuer last e) (pre ++ rest)
          else if e.user_certificate ≠ cert_serial then
            findCertScan known_exts cert_serial cert_issuer_name
              (entryEffIssuer last e) (pre ++ rest)
          else Except.ok (some (e.revocation_date,
            e.crl_reason.getD Reason.unspecified))) := rfl
      rw [hstep, if_neg hext]
      have hcarry : carryIssuer last (e :: pre) =
          carryIssuer (entryEffIssuer last e) pre := rfl
      by_cases hiss : entryEffIssuer last e ≠ cert_issuer_name
      · rw [if_pos hiss] at hscan ⊢
        rw [hcarry]
        exact ih rest (entryEffIssuer last e) hscan
      · rw [if_neg hiss] at hscan ⊢
        by_cases hser : e.user_certificate ≠ cert_serial
        · rw [if_pos hser] at hscan ⊢
          rw [hcarry]
          exact ih rest (entryEffIssuer last e) hscan
        · rw [if_neg hser] at hscan
          cases hscan

/-- C10: when the entries before `e` produce no match (and no unknown
critical entry extension), `e` carries only known critical entry
extensions, its effective issuer (after the carry-forward
`certificate_issuer` logic) equals the certificate issuer, its serial
matches, and it carries no `crl_reason` entry extension, then the
CRL/delta lookup reports the entry revoked with reason `unspecified` and
the entry revocation date — both when the list is the base CRL and when
it is the delta CRL — and `_handle_single_crl` turns that result into a
`RevokedError` with that reason and date. -/
theorem crl_entry_without_reason_revokes_unspecified
    (known_exts : Finset ExtOid) (cert_serial : Nat)
    (cert_issuer_name crl_issuer_subject : DirName)
    (pre post other_base : List RevokedCertEntry) (e : RevokedCertEntry)
    (interim_reasons : Finset Reason)
    (hpre : findCertScan known_exts cert_serial cert_issuer_name
      crl_issuer_subject pre = Except.ok none)
    (hext : e.critical_extensions ⊆ known_exts)
    (hiss : entryEffIssuer (carryIssuer crl_issuer_subject pre) e =
      cert_issuer_name)
    (hser : e.user_certificate = cert_serial)
    (hreason : e.crl_reason = none) :
    checkCertOnCrlAndDelta known_exts cert_serial cert_issuer_name
      (pre ++ e :: post) none crl_issuer_subject =
      Except.ok (some (e.revocation_date, Reason.unspecified)) ∧
    checkCertOnCrlAndDelta known_exts cert_serial cert_issuer_name
      other_base (some (pre ++ e :: post)) crl_issuer_subject =
      Except.ok (some (e.revocation_date, Reason.unspecified)) ∧
    handleRevocationResult (some (e.revocation_date, Reason.unspecified))
      interim_reasons =
      Except.error (e.revocation_date, Reason.unspecified) := by
  have hfind : findCertInList known_exts cert_serial cert_issuer_name
      (pre ++ e :: post) crl_issuer_subject =
      Except.ok (some (e.revocation_date, Reason.unspecified)) := by
    rw [findCertInList,
      findCertScan_append known_exts cert_serial cert_issuer_name pre
        (e :: post) crl_issuer_subject hpre]
    rw [findCertScan, if_neg (not_not_intro hext), if_neg (by rw [hiss]; simp),
      if_neg (by rw [hser]; simp)]
    rw [hreason]
    rfl
  refine ⟨?_, ?_, rfl⟩
  · rw [checkCertOnCrlAndDelta, hfind]
    rfl
  · rw [checkCertOnCrlAndDelta, hfind]
    rfl

/-- C10 witness: a one-entry CRL whose entry has no entry extensions and
no `crl_reason`, matching serial 42 issued by the CRL issuer itself. -/
theorem crl_entry_without_reason_revokes_unspecified_witness :
    checkCertOnCrlAndDelta ∅ 42 [0] [⟨∅, none, 42, 100, none⟩] none [0] =
      Except.ok (some (100, Reason.unspecified)) ∧
    handleRevocationResult (some (100, Reason.unspecified)) ∅ =
      Except.error (100, Reason.unspecified) :=
  ⟨(crl_entry_without_reason_revokes_unspecified ∅ 42 [0] [0] [] [] []
      ⟨∅, none, 42, 100, none⟩ ∅ rfl (by simp) rfl rfl rfl).1,
    (crl_entry_without_reason_revokes_unspecified ∅ 42 [0] [0] [] [] []
      ⟨∅, none, 42, 100, none⟩ ∅ rfl (by simp) rfl rfl rfl).2.2⟩
